import Mathlib

/-
  Verification development for the Financial-Data-Pipeline-and-Analytics
  repository.  The definitions below are a shallow embedding of the Python
  source (src/data_loader.py and src/api_fetchers.py); each definition's
  doc comment names the function it embeds.
-/

namespace FinPipeline

/-! ## Calendar dates

Python `datetime.date` values, as used throughout `data_loader.py`.
`addOneDay` embeds `some_date + timedelta(days=1)` (proleptic Gregorian
calendar, matching Python's `datetime`), and `dlt` embeds the `<`
comparison on dates (lexicographic on (year, month, day)). -/

structure PyDate where
  year : Nat
  month : Nat
  day : Nat
deriving DecidableEq

/-- Gregorian leap-year rule used by Python's `datetime`. -/
def isLeapYear (y : Nat) : Bool :=
  (y % 4 == 0 && y % 100 != 0) || y % 400 == 0

/-- Number of days in a month of a given year (Gregorian). -/
def daysInMonth (y m : Nat) : Nat :=
  if m == 2 then (if isLeapYear y then 29 else 28)
  else if m == 4 || m == 6 || m == 9 || m == 11 then 30
  else 31

/-- `d + timedelta(days=1)` on a `datetime.date`. -/
def PyDate.addOneDay (d : PyDate) : PyDate :=
  if d.day < daysInMonth d.year d.month then ⟨d.year, d.month, d.day + 1⟩
  else if d.month < 12 then ⟨d.year, d.month + 1, 1⟩
  else ⟨d.year + 1, 1, 1⟩

/-- Strict `<` on `datetime.date`: lexicographic on (year, month, day). -/
def PyDate.dlt (a b : PyDate) : Bool :=
  a.year < b.year ||
    (a.year == b.year &&
      (a.month < b.month || (a.month == b.month && a.day < b.day)))

/-- Non-strict `<=` on `datetime.date`. -/
def PyDate.dle (a b : PyDate) : Bool :=
  a.dlt b || a == b

/-! ## `get_secret` (src/data_loader.py lines 56-78)

`os.environ.get` / `st.secrets.get` are modelled as partial maps
`String → Option String`.  Python's truthiness test `if local_value:` on an
`Optional[str]` is true exactly when the value is present and non-empty. -/

/-- Python truthiness of an `Optional[str]`: `None` and `""` are falsy. -/
def truthyStr : Option String → Bool
  | none => false
  | some s => !s.isEmpty

/-- `get_secret` (src/data_loader.py).  `env` is `os.environ.get`,
`streamlitEnv` is the module flag `STREAMLIT_ENV`, `hasSecrets` is
`hasattr(st, 'secrets')`, `secrets` is `st.secrets.get`. -/
def getSecret (env : String → Option String) (streamlitEnv : Bool)
    (hasSecrets : Bool) (secrets : String → Option String)
    (key : String) : Option String :=
  let localValue := env key
  if truthyStr localValue then localValue
  else
    if streamlitEnv && hasSecrets then
      let cloudValue := secrets key
      if truthyStr cloudValue then cloudValue
      else none
    else none

/-! ## Fetch-window resolution (src/data_loader.py lines 177-203)

Step 1 of `load_data`'s per-symbol loop: pick `start_date`, `end_date` and
`filter_date` from `custom_start_date`, the `historical` flag and the
latest stored date.  Python truthiness on the `Optional[date]` arguments
is `Option.isSome` (a `date` object is always truthy). -/

inductive FetchMode where
  | customRange
  | fullHistorical
  | incremental
deriving DecidableEq

structure FetchWindow where
  mode : FetchMode
  startDate : PyDate
  endDate : Option PyDate
  filterDate : Option PyDate
deriving DecidableEq

/-- The fixed epoch `date(2005, 1, 1)` of the full-historical branch. -/
def epoch2005 : PyDate := ⟨2005, 1, 1⟩

/-- The date-resolution block of `load_data` (src/data_loader.py lines
177-203).  `today` is `datetime.now().date()`. -/
def resolveWindow (today : PyDate) (latestDateDb : Option PyDate)
    (historical : Bool) (customStartDate customEndDate : Option PyDate) :
    FetchWindow :=
  match customStartDate with
  | some s =>
      { mode := .customRange
        startDate := s
        endDate := some (customEndDate.getD today)
        filterDate := none }
  | none =>
      if historical || latestDateDb.isNone then
        { mode := .fullHistorical
          startDate := epoch2005
          endDate := none
          filterDate := none }
      else
        match latestDateDb with
        | some d =>
            { mode := .incremental
              startDate := d.addOneDay
              endDate := some today
              filterDate := some d }
        | none =>
            { mode := .fullHistorical
              startDate := epoch2005
              endDate := none
              filterDate := none }

/-! ## Price bars and rows -/

/-- One normalized OHLCV bar as produced by the fetchers (the DataFrame
columns `timestamp, symbol, open_price, high_price, low_price,
close_price, volume`).  Prices are modelled as rationals. -/
structure Bar where
  timestamp : PyDate
  symbol : String
  openPrice : Rat
  highPrice : Rat
  lowPrice : Rat
  closePrice : Rat
  volume : Rat
deriving DecidableEq

/-- A persisted row of `stock_prices`: a bar plus `load_timestamp`
(`datetime.now()` at insert time, modelled as a tick counter). -/
structure Row where
  timestamp : PyDate
  symbol : String
  openPrice : Rat
  highPrice : Rat
  lowPrice : Rat
  closePrice : Rat
  volume : Rat
  loadTimestamp : Nat
deriving DecidableEq

/-- Step 6 of `load_data`: map a fetched bar to the persisted column set,
stamping `load_timestamp = datetime.now()` (src/data_loader.py 268-280). -/
def Bar.toRow (b : Bar) (now : Nat) : Row :=
  ⟨b.timestamp, b.symbol, b.openPrice, b.highPrice, b.lowPrice,
    b.closePrice, b.volume, now⟩

/-! ## Local incremental filtering (src/data_loader.py lines 248-259)

`df = df[df['timestamp'] > filter_date]` keeps the rows whose timestamp is
strictly after the latest stored date. -/

/-- The local filtering step of `load_data` (applied when `filter_date`
is set, i.e. in incremental mode). -/
def filterIncremental (rows : List Bar) (filterDate : PyDate) : List Bar :=
  rows.filter (fun r => filterDate.dlt r.timestamp)

/-! ## Fetchers (src/api_fetchers.py)

Each `fetch_data` is embedded as a function from the symbol, its
arguments and an abstract outcome of the network interaction to
`Except PyError (List Bar)`: `Except.ok` is a normal return,
`Except.error` is an exception escaping `fetch_data`. -/

/-- Python exceptions that can escape a `fetch_data` call. -/
inductive PyError where
  | requestException
  | jsonDecodeError
  | keyError
  | attributeError
deriving DecidableEq

/-! ### AlphaVantageFetcher.fetch_data (src/api_fetchers.py lines 29-58) -/

/-- One entry of the Alpha Vantage time-series dict: the parsed date key
and the five value fields, each possibly absent (`values.get(k, 0)`
defaults missing fields to 0 via `float(...)`). -/
structure AVEntry where
  dateKey : PyDate
  openVal : Option Rat
  highVal : Option Rat
  lowVal : Option Rat
  closeVal : Option Rat
  volumeVal : Option Rat

/-- The decoded JSON body of an Alpha Vantage response: `timeSeries` is
`some entries` when the time-series key is present, `none` otherwise. -/
structure AVBody where
  timeSeries : Option (List AVEntry)

/-- Outcome of `requests.get(url)` in `AlphaVantageFetcher.fetch_data`:
either the transport layer raises, or a response arrives with a status
code and a body (`none` body = `response.json()` raises a decode error). -/
inductive AVOutcome where
  | transportError
  | response (status : Nat) (body : Option AVBody)

/-- One record of the list built at src/api_fetchers.py lines 47-57. -/
def avRecord (symbol : String) (e : AVEntry) : Bar :=
  { timestamp := e.dateKey
    symbol := symbol
    openPrice := e.openVal.getD 0
    highPrice := e.highVal.getD 0
    lowPrice := e.lowVal.getD 0
    closePrice := e.closeVal.getD 0
    volume := e.volumeVal.getD 0 }

/-- `AlphaVantageFetcher.fetch_data` (src/api_fetchers.py lines 29-58),
called with `asset_type='stocks'` as `load_data` does.  `requests.get` is
outside any try block, so a transport error propagates; likewise
`response.json()` on an undecodable 200 body.  A non-200 status or a
missing time-series key returns an empty DataFrame. -/
def avFetchData (symbol : String) (outcome : AVOutcome) :
    Except PyError (List Bar) :=
  match outcome with
  | .transportError => .error .requestException
  | .response status body =>
      if status ≠ 200 then .ok []
      else
        match body with
        | none => .error .jsonDecodeError
        | some b =>
            match b.timeSeries with
            | none => .ok []
            | some entries => .ok (entries.map (avRecord symbol))

/-! ### YahooFinanceFetcher.fetch_data (src/api_fetchers.py lines 66-91) -/

/-- A row of the DataFrame returned by `ticker.history` before renaming. -/
structure YFRow where
  histDate : PyDate
  histOpen : Rat
  histHigh : Rat
  histLow : Rat
  histClose : Rat
  histVolume : Rat

/-- Outcome of the body of the try block in
`YahooFinanceFetcher.fetch_data`: either some statement inside the try
raises (all exceptions are caught there), or `ticker.history` returns a
DataFrame. -/
inductive YFOutcome where
  | raisesInTry
  | history (rows : List YFRow)

/-- The rename/column-selection of src/api_fetchers.py lines 84-87. -/
def yfToBar (symbol : String) (r : YFRow) : Bar :=
  ⟨r.histDate, symbol, r.histOpen, r.histHigh, r.histLow, r.histClose,
    r.histVolume⟩

/-- `YahooFinanceFetcher.fetch_data` (src/api_fetchers.py lines 66-91).
`start_date.strftime(...)` runs before the try block, so a `None`
start date raises `AttributeError` uncaught; inside the try every
exception is caught and converted to an empty DataFrame. -/
def yfFetchData (symbol : String) (startDate : Option PyDate)
    (_endDate : Option PyDate) (outcome : YFOutcome) :
    Except PyError (List Bar) :=
  match startDate with
  | none => .error .attributeError
  | some _ =>
      match outcome with
      | .raisesInTry => .ok []
      | .history rows =>
          if rows.isEmpty then .ok []
          else .ok (rows.map (yfToBar symbol))

/-! ### CoinMarketCapFetcher.fetch_data (src/api_fetchers.py lines 104-149) -/

/-- The decoded JSON body of a CoinMarketCap response: `dataField` is
`some m` when the top-level `'data'` key is present, mapping each symbol
to its `quote.USD.price`. -/
structure CMCBody where
  dataField : Option (List (String × Rat))

/-- Outcome of the try block in `CoinMarketCapFetcher.fetch_data`: a
`requests.exceptions.RequestException` (transport error, or the
`HTTPError` of `raise_for_status`) is caught; an undecodable body makes
`response.json()` raise `requests.exceptions.JSONDecodeError` (requests
≥ 2.27), a `RequestException` subclass, so the `except RequestException`
clause catches it too and returns an empty DataFrame. -/
inductive CMCOutcome where
  | requestException
  | response (body : Option CMCBody)

/-- `CoinMarketCapFetcher.fetch_data` (src/api_fetchers.py lines
104-149).  After the try block, `data['data']` raises `KeyError` when
the `'data'` key is missing; a symbol absent from the map returns an
empty DataFrame; otherwise one synthetic bar with
open = high = low = close = price, volume = 0 and `timestamp = now`. -/
def cmcFetchData (symbol originalSymbol apiKey : String) (now : PyDate)
    (outcome : CMCOutcome) : Except PyError (List Bar) :=
  if apiKey.isEmpty then .ok []
  else
    match outcome with
    | .requestException => .ok []
    | .response none => .ok []
    | .response (some body) =>
        match body.dataField with
        | none => .error .keyError
        | some m =>
            match m.lookup symbol with
            | none => .ok []
            | some price =>
                .ok [⟨now, originalSymbol, price, price, price, price, 0⟩]

/-! ## Upsert (src/data_loader.py lines 282-299)

The `stock_prices` table is modelled as a list of rows; the SQL
`INSERT ... ON CONFLICT (timestamp, symbol) DO UPDATE` statement is
embedded row by row: on a key collision every value column and
`load_timestamp` are overwritten in place, otherwise the row is
appended. -/

/-- The conflict key `(timestamp, symbol)` of `stock_prices`. -/
def rowKey (r : Row) : PyDate × String := (r.timestamp, r.symbol)

/-- The `DO UPDATE SET` clause: overwrite `open_price, high_price,
low_price, close_price, volume, load_timestamp` of the existing row with
the excluded (incoming) row's values; the key columns are untouched. -/
def conflictUpdate (existing incoming : Row) : Row :=
  { existing with
      openPrice := incoming.openPrice
      highPrice := incoming.highPrice
      lowPrice := incoming.lowPrice
      closePrice := incoming.closePrice
      volume := incoming.volume
      loadTimestamp := incoming.loadTimestamp }

/-- Upsert of a single row into the table under the `ON CONFLICT
(timestamp, symbol) DO UPDATE` semantics. -/
def upsertRow (t : List Row) (r : Row) : List Row :=
  if t.any (fun x => decide (rowKey x = rowKey r)) then
    t.map (fun x => if rowKey x = rowKey r then conflictUpdate x r else x)
  else t ++ [r]

/-- The batch upsert executed by `execute_values` (one statement per
load, applied row by row). -/
def upsertBatch (t : List Row) (rs : List Row) : List Row :=
  rs.foldl upsertRow t

/-- The uniqueness invariant of `stock_prices`: at most one row per
`(timestamp, symbol)` key (the table's `UNIQUE(timestamp, symbol)`
constraint). -/
def keysNodup (t : List Row) : Prop :=
  (t.map rowKey).Nodup

/-- The rows of the table holding a given `(timestamp, symbol)` key. -/
def rowsWithKey (t : List Row) (k : PyDate × String) : List Row :=
  t.filter (fun x => decide (rowKey x = k))

/-- The value columns of a row (everything the `DO UPDATE SET` clause
overwrites): `open_price, high_price, low_price, close_price, volume,
load_timestamp`. -/
def rowValues (r : Row) : Rat × Rat × Rat × Rat × Rat × Nat :=
  (r.openPrice, r.highPrice, r.lowPrice, r.closePrice, r.volume,
    r.loadTimestamp)

/-! ## Per-symbol commit/rollback and the load run
(src/data_loader.py lines 282-299, loop at 173)

Steps 7-8 of `load_data`: the upsert and `conn.commit()` sit inside a
try block; on any exception `conn.rollback()` discards the uncommitted
batch, so the database state is exactly what it was before the batch,
and the `for symbol in assets` loop continues.  `persistRaises`
abstracts whether `execute_values`/`commit` raises for that symbol. -/

/-- One symbol's persistence attempt: commit the batch, or roll it back
on an exception (database unchanged). -/
def commitSymbol (db : List Row) (batch : List Row)
    (persistRaises : Bool) : List Row :=
  if persistRaises then db else upsertBatch db batch

/-- A symbol's work in a load run: the batch built for it and whether
persisting it raises. -/
structure SymbolJob where
  batch : List Row
  persistRaises : Bool

/-- The `for symbol in assets` loop of `load_data`, restricted to its
effect on the database. -/
def runLoad (db : List Row) (jobs : List SymbolJob) : List Row :=
  jobs.foldl (fun d j => commitSymbol d j.batch j.persistRaises) db

/-! ## Connection closing (src/data_loader.py)

`get_data` (lines 99-118) closes its connection in a `finally` block.
`load_data` (lines 165-302) calls `conn.close()` only on the straight
path after the loop (lines 301-302); there is no try/finally around the
loop, so an uncaught exception inside it (for example an Alpha Vantage
transport error, see `avFetchData`) exits `load_data` without reaching
`conn.close()`. -/

/-- Outcome of the query in `get_data`'s try block. -/
inductive QueryOutcome where
  | ok (rows : List Row)
  | raises

/-- `get_data` (src/data_loader.py lines 99-118) after a successful
connection: the result DataFrame and whether the connection was closed.
The `finally` block runs on both the normal and the exception path. -/
def getDataRun (outcome : QueryOutcome) : List Row × Bool :=
  match outcome with
  | .ok rows => (rows, true)
  | .raises => ([], true)

/-- Whether a `load_data` run over Alpha Vantage assets reaches the
`conn.close()` at src/data_loader.py lines 301-302, given the network
outcome of each symbol's fetch: an exception escaping `fetch_data`
propagates out of `load_data` (no enclosing try), skipping the close. -/
def loadDataReachesClose (symbol : String) : List AVOutcome → Bool
  | [] => true
  | o :: rest =>
      match avFetchData symbol o with
      | .error _ => false
      | .ok _ => loadDataReachesClose symbol rest

/-! # Theorems -/

/-! ## Helper lemmas -/

/-- Dates are totally ordered: `a < b` fails exactly when `b <= a`. -/
theorem PyDate.dlt_eq_false_iff (a b : PyDate) :
    a.dlt b = false ↔ b.dle a = true := by
  cases a with
  | mk ay am ad =>
    cases b with
    | mk by_ bm bd =>
      simp [PyDate.dlt, PyDate.dle, PyDate.mk.injEq, Nat.not_lt]
      omega

/-! ## C3: incremental resolution -/

/-- C3: for every symbol with a stored latest date `D`, resolving with no
custom start date and the forced-historical flag off yields incremental
mode with `start = D + 1 day` and `end =` today's date (and `filter_date
= D`). -/
theorem resolveWindow_incremental (today D : PyDate)
    (customEnd : Option PyDate) :
    resolveWindow today (some D) false none customEnd =
      { mode := .incremental
        startDate := D.addOneDay
        endDate := some today
        filterDate := some D } := rfl

/-! ## C4: full-historical resolution -/

/-- C4: with no custom start date, either the forced-historical flag or
the absence of a stored latest date yields full-historical mode with
`start = date(2005, 1, 1)` and no end bound. -/
theorem resolveWindow_fullHistorical (today : PyDate)
    (latest : Option PyDate) (historical : Bool)
    (customEnd : Option PyDate) :
    resolveWindow today latest true none customEnd =
      { mode := .fullHistorical
        startDate := epoch2005
        endDate := none
        filterDate := none } ∧
    resolveWindow today none historical none customEnd =
      { mode := .fullHistorical
        startDate := epoch2005
        endDate := none
        filterDate := none } := by
  refine ⟨rfl, ?_⟩
  cases historical <;> rfl

/-! ## C5: custom-range resolution -/

/-- C5: an explicit custom start date always yields custom-range mode
with that start and with end defaulting to today when no custom end is
given, regardless of the forced-historical flag and the stored state. -/
theorem resolveWindow_custom (today s : PyDate) (latest : Option PyDate)
    (historical : Bool) (customEnd : Option PyDate) :
    resolveWindow today latest historical (some s) customEnd =
      { mode := .customRange
        startDate := s
        endDate := some (customEnd.getD today)
        filterDate := none } := rfl

/-! ## C6: local incremental filtering -/

/-- C6: the local filtering step keeps exactly the fetched rows whose
timestamp is strictly after the last stored date; since the date order
is total, a row fails the strictly-after test exactly when its timestamp
is at or before the last stored date. -/
theorem filterIncremental_mem (rows : List Bar) (fd : PyDate) (r : Bar) :
    (r ∈ filterIncremental rows fd ↔
      r ∈ rows ∧ fd.dlt r.timestamp = true) ∧
    (fd.dlt r.timestamp = false ↔ r.timestamp.dle fd = true) := by
  constructor
  · simp [filterIncremental, List.mem_filter]
  · exact PyDate.dlt_eq_false_iff fd r.timestamp

/-! ## C7: per-symbol rollback and continuation -/

/-- C7: a symbol whose persistence raises leaves the database unchanged
(rollback of just that batch), and the run continues: the final state of
a run containing the failing symbol equals the final state of the run
with that symbol's job removed — it never aborts the run. -/
theorem runLoad_rollback_continue (db : List Row)
    (pre post : List SymbolJob) (batch : List Row) :
    commitSymbol db batch true = db ∧
    runLoad db (pre ++ { batch := batch, persistRaises := true } :: post) =
      runLoad db (pre ++ post) := by
  refine ⟨rfl, ?_⟩
  simp [runLoad, List.foldl_append, commitSymbol]

/-! ## C9: Yahoo fetch with a missing start date -/

/-- C9: `YahooFinanceFetcher.fetch_data` raises when `start_date` is
`None` (the `strftime` call precedes the try block), and never raises
when a start date is provided — every exception inside the try block is
converted to an empty result. -/
theorem yfFetchData_none_start (sym : String) (ed : Option PyDate)
    (o : YFOutcome) (s : PyDate) :
    yfFetchData sym none ed o = .error .attributeError ∧
    ∃ l, yfFetchData sym (some s) ed o = .ok l := by
  refine ⟨rfl, ?_⟩
  cases o with
  | raisesInTry => exact ⟨[], rfl⟩
  | history rows =>
      by_cases h : rows.isEmpty <;>
        simp [yfFetchData, h]

/-! ## C10: get_secret truthiness -/

/-- C10: `get_secret` returns the environment value only when it is
non-empty; an empty-string environment value behaves exactly as an
absent one (fall-through to the Streamlit store), and when neither store
yields a truthy (present and non-empty) value the result is `None`. -/
theorem getSecret_truthiness (env : String → Option String)
    (se hs : Bool) (sec : String → Option String) (key v : String)
    (henv : env key = some v) (hv : ¬v.isEmpty = true)
    (env0 : String → Option String) (h0 : env0 key = some "")
    (env1 : String → Option String) (sec1 : String → Option String)
    (h1 : truthyStr (env1 key) = false)
    (h2 : truthyStr (sec1 key) = false) :
    getSecret env se hs sec key = some v ∧
    getSecret env0 se hs sec key =
      getSecret (fun _ => none) se hs sec key ∧
    getSecret env1 se hs sec1 key = none := by
  refine ⟨?_, ?_, ?_⟩
  · simp [getSecret, henv, truthyStr, hv]
  · have he : ("".isEmpty) = true := rfl
    simp [getSecret, h0, truthyStr, he]
  · simp [getSecret, h1, h2]

/-- Witness for C10 at concrete stores. -/
theorem getSecret_truthiness_witness :
    (fun _ => some "x") "K" = some "x" ∧ ¬("x".isEmpty = true) ∧
    (fun _ => some "") "K" = some "" ∧
    truthyStr ((fun _ => (none : Option String)) "K") = false ∧
    truthyStr ((fun _ => some "") "K") = false ∧
    (getSecret (fun _ => some "x") true true (fun _ => some "") "K" =
        some "x" ∧
      getSecret (fun _ => some "") true true (fun _ => some "") "K" =
        getSecret (fun _ => none) true true (fun _ => some "") "K" ∧
      getSecret (fun _ => none) true true (fun _ => some "") "K" =
        none) :=
  ⟨rfl, by decide, rfl, rfl, by decide,
    getSecret_truthiness (fun _ => some "x") true true (fun _ => some "")
      "K" "x" rfl (by decide) (fun _ => some "") rfl (fun _ => none)
      (fun _ => some "") rfl (by decide)⟩

/-! ## C2: fetcher failure policy -/

/-- C2 counterexample: an Alpha Vantage transport error is not swallowed
— `requests.get` sits outside any try block, so `fetch_data` raises
instead of returning an empty result. -/
theorem avFetchData_transport_raises :
    avFetchData "MSFT" AVOutcome.transportError =
      Except.error PyError.requestException := rfl

/-- C2 (amended): each fetcher swallows the failure conditions it guards
(Alpha Vantage: non-success status, missing time-series field; Yahoo:
any exception inside its try block, given a start date; CoinMarketCap:
transport/status errors, undecodable bodies and symbol-not-found), but
an Alpha Vantage transport error or undecodable 200 body, a
CoinMarketCap body missing the `data` field (the `data['data']` access
sits after the try block), and a `None` Yahoo start date escape as
exceptions. -/
theorem fetchData_failure_policy (sym osym key : String) (status : Nat)
    (body : Option AVBody) (s : PyDate) (ed : Option PyDate)
    (now : PyDate) (m : List (String × Rat))
    (hstatus : status ≠ 200) (hsym : m.lookup sym = none)
    (hkey : key.isEmpty = false) :
    avFetchData sym (.response status body) = .ok [] ∧
    avFetchData sym (.response 200 (some ⟨none⟩)) = .ok [] ∧
    yfFetchData sym (some s) ed .raisesInTry = .ok [] ∧
    cmcFetchData sym osym key now .requestException = .ok [] ∧
    cmcFetchData sym osym key now (.response (some ⟨some m⟩)) = .ok [] ∧
    cmcFetchData sym osym key now (.response none) = .ok [] ∧
    yfFetchData sym none ed .raisesInTry = .error .attributeError ∧
    avFetchData sym .transportError = .error .requestException ∧
    avFetchData sym (.response 200 none) = .error .jsonDecodeError ∧
    cmcFetchData sym osym key now (.response (some ⟨none⟩)) =
      .error .keyError := by
  refine ⟨?_, rfl, rfl, ?_, ?_, ?_, rfl, rfl, rfl, ?_⟩
  · simp [avFetchData, hstatus]
  · cases h : key.isEmpty <;> simp [cmcFetchData, h]
  · simp [cmcFetchData, hkey, hsym]
  · cases h : key.isEmpty <;> simp [cmcFetchData, h]
  · simp [cmcFetchData, hkey]

/-- Witness for C2 (amended) at concrete inputs. -/
theorem fetchData_failure_policy_witness :
    (404 : Nat) ≠ 200 ∧
    (([] : List (String × Rat)).lookup "BTC" = none) ∧
    ("k".isEmpty = false) ∧
    (avFetchData "BTC" (.response 404 none) = .ok [] ∧
      avFetchData "BTC" (.response 200 (some ⟨none⟩)) = .ok [] ∧
      yfFetchData "BTC" (some ⟨2020, 1, 1⟩) none .raisesInTry = .ok [] ∧
      cmcFetchData "BTC" "BTC" "k" ⟨2020, 1, 1⟩ .requestException =
        .ok [] ∧
      cmcFetchData "BTC" "BTC" "k" ⟨2020, 1, 1⟩
          (.response (some ⟨some []⟩)) = .ok [] ∧
      cmcFetchData "BTC" "BTC" "k" ⟨2020, 1, 1⟩ (.response none) =
        .ok [] ∧
      yfFetchData "BTC" none none .raisesInTry =
        .error .attributeError ∧
      avFetchData "BTC" .transportError = .error .requestException ∧
      avFetchData "BTC" (.response 200 none) = .error .jsonDecodeError ∧
      cmcFetchData "BTC" "BTC" "k" ⟨2020, 1, 1⟩
          (.response (some ⟨none⟩)) = .error .keyError) :=
  ⟨by decide, rfl, by decide,
    fetchData_failure_policy "BTC" "BTC" "k" 404 none ⟨2020, 1, 1⟩ none
      ⟨2020, 1, 1⟩ [] (by decide) rfl (by decide)⟩

/-! ## C8: connection closing on exit paths -/

/-- C8 counterexample: a `load_data` run whose first Alpha Vantage fetch
hits a transport error exits through an uncaught exception without
reaching `conn.close()` — not every exit path closes the connection. -/
theorem loadData_close_skipped :
    loadDataReachesClose "MSFT" [AVOutcome.transportError] = false := rfl

/-- C8 (amended): `get_data` closes its connection on every exit path
(its close is in a `finally` block), and `load_data` reaches its
`conn.close()` whenever no fetch raises an uncaught exception; but an
uncaught fetch exception exits `load_data` with the connection open. -/
theorem connection_close_paths (o : QueryOutcome) (sym : String)
    (outcomes : List AVOutcome)
    (h : ∀ a ∈ outcomes, ∃ l, avFetchData sym a = .ok l) :
    (getDataRun o).2 = true ∧
    loadDataReachesClose sym outcomes = true := by
  refine ⟨by cases o <;> rfl, ?_⟩
  induction outcomes with
  | nil => rfl
  | cons a rest ih =>
      obtain ⟨l, hl⟩ := h a (by simp)
      have hrest : loadDataReachesClose sym rest = true :=
        ih (fun b hb => h b (by simp [hb]))
      simp [loadDataReachesClose, hl, hrest]

/-- Witness for C8 (amended) at concrete inputs. -/
theorem connection_close_paths_witness :
    (∀ a ∈ [AVOutcome.response 404 none], ∃ l,
        avFetchData "MSFT" a = Except.ok l) ∧
    ((getDataRun (QueryOutcome.ok [])).2 = true ∧
      loadDataReachesClose "MSFT" [AVOutcome.response 404 none] = true) :=
  ⟨fun a ha => by
      simp at ha
      subst ha
      exact ⟨[], rfl⟩,
    connection_close_paths (QueryOutcome.ok []) "MSFT"
      [AVOutcome.response 404 none]
      (fun a ha => by
        simp at ha
        subst ha
        exact ⟨[], rfl⟩)⟩

/-! ## C1: upsert uniqueness

Helper lemmas about `upsertRow` leading to the uniqueness theorem. -/

/-- The `DO UPDATE` overwrite does not touch the key columns. -/
theorem rowKey_conflictUpdate (x r : Row) :
    rowKey (conflictUpdate x r) = rowKey x := rfl

/-- The `DO UPDATE` overwrite installs the incoming row's values. -/
theorem rowValues_conflictUpdate (x r : Row) :
    rowValues (conflictUpdate x r) = rowValues r := rfl

/-- The key-existence test of `upsertRow` is membership of the key in
the table's key column. -/
theorem any_key_iff (t : List Row) (k : PyDate × String) :
    t.any (fun x => decide (rowKey x = k)) = true ↔ k ∈ t.map rowKey := by
  rw [List.any_eq_true]
  constructor
  · rintro ⟨x, hx, hk⟩
    exact List.mem_map.mpr ⟨x, hx, of_decide_eq_true hk⟩
  · intro hm
    rcases List.mem_map.mp hm with ⟨x, hx, hk⟩
    exact ⟨x, hx, decide_eq_true hk⟩

/-- The key column of the table after a single-row upsert: unchanged on
a conflict, extended by the new key otherwise. -/
theorem upsertRow_map_rowKey (t : List Row) (r : Row) :
    (upsertRow t r).map rowKey =
      if t.any (fun x => decide (rowKey x = rowKey r)) then t.map rowKey
      else t.map rowKey ++ [rowKey r] := by
  unfold upsertRow
  by_cases h : t.any (fun x => decide (rowKey x = rowKey r)) = true
  · simp only [h, if_true, List.map_map]
    congr 1
    funext x
    by_cases hx : rowKey x = rowKey r <;>
      simp [Function.comp, hx, rowKey_conflictUpdate]
  · simp [h]

/-- A single-row upsert preserves the uniqueness invariant. -/
theorem upsertRow_keysNodup (t : List Row) (r : Row)
    (h : keysNodup t) : keysNodup (upsertRow t r) := by
  unfold keysNodup at h ⊢
  rw [upsertRow_map_rowKey]
  by_cases ha : t.any (fun x => decide (rowKey x = rowKey r)) = true
  · simpa [ha]
  · have hmem : rowKey r ∉ t.map rowKey := fun hm =>
      ha ((any_key_iff t (rowKey r)).mpr hm)
    simp [ha, List.nodup_append, h, hmem]

/-- After a single-row upsert, the row's key is present. -/
theorem upsertRow_key_mem (t : List Row) (r : Row) :
    rowKey r ∈ (upsertRow t r).map rowKey := by
  rw [upsertRow_map_rowKey]
  by_cases ha : t.any (fun x => decide (rowKey x = rowKey r)) = true
  · rw [if_pos ha]
    exact (any_key_iff t (rowKey r)).mp ha
  · rw [if_neg ha]
    simp

/-- On a key conflict the upsert rewrites in place: the table's length
is unchanged. -/
theorem upsertRow_length_mem (t : List Row) (r : Row)
    (ha : t.any (fun x => decide (rowKey x = rowKey r)) = true) :
    (upsertRow t r).length = t.length := by
  unfold upsertRow
  rw [if_pos ha]
  simp

/-- A key absent from the key column selects no rows. -/
theorem rowsWithKey_eq_nil (t : List Row) (k : PyDate × String)
    (h : k ∉ t.map rowKey) : rowsWithKey t k = [] := by
  unfold rowsWithKey
  rw [List.filter_eq_nil_iff]
  intro x hx
  simp only [decide_eq_true_eq]
  intro hk
  exact h (List.mem_map.mpr ⟨x, hx, hk⟩)

/-- Key selection distributes over table concatenation. -/
theorem rowsWithKey_append (t s : List Row) (k : PyDate × String) :
    rowsWithKey (t ++ s) k = rowsWithKey t k ++ rowsWithKey s k := by
  simp [rowsWithKey, List.filter_append]

/-- Selecting the conflicting key after the in-place rewrite of
`upsertRow`'s conflict branch yields the overwritten selected rows. -/
theorem rowsWithKey_map_update (t : List Row) (r : Row) :
    rowsWithKey
        (t.map (fun x =>
          if rowKey x = rowKey r then conflictUpdate x r else x))
        (rowKey r) =
      (rowsWithKey t (rowKey r)).map (fun x => conflictUpdate x r) := by
  induction t with
  | nil => rfl
  | cons a t ih =>
      by_cases ha : rowKey a = rowKey r
      · simpa [rowsWithKey, List.filter_cons, ha, rowKey_conflictUpdate]
          using ih
      · simpa [rowsWithKey, List.filter_cons, ha] using ih

/-- In a table satisfying the uniqueness invariant, a present key
selects exactly one row. -/
theorem rowsWithKey_nodup_singleton (t : List Row) (k : PyDate × String)
    (h : keysNodup t) (hm : k ∈ t.map rowKey) :
    ∃ x, rowsWithKey t k = [x] ∧ rowKey x = k := by
  induction t with
  | nil => simp at hm
  | cons a t ih =>
      unfold keysNodup at h
      simp only [List.map_cons, List.nodup_cons] at h
      obtain ⟨hna, hnt⟩ := h
      by_cases ha : rowKey a = k
      · refine ⟨a, ?_, ha⟩
        unfold rowsWithKey
        rw [List.filter_cons]
        have h0 : rowsWithKey t k = [] :=
          rowsWithKey_eq_nil t k (ha ▸ hna)
        unfold rowsWithKey at h0
        simp [ha, h0]
      · have hm' : k ∈ t.map rowKey := by
          rcases List.mem_cons.mp hm with h1 | h1
          · exact absurd h1.symm ha
          · exact h1
        obtain ⟨x, hx, hk⟩ := ih hnt hm'
        refine ⟨x, ?_, hk⟩
        unfold rowsWithKey at hx ⊢
        rw [List.filter_cons]
        simp [ha, hx]

/-- A single-row upsert into a table satisfying the uniqueness invariant
leaves exactly one row at the upserted key, and that row carries the
upserted values. -/
theorem upsertRow_rowsWithKey (t : List Row) (r : Row)
    (h : keysNodup t) :
    ∃ x, rowsWithKey (upsertRow t r) (rowKey r) = [x] ∧
      rowKey x = rowKey r ∧ rowValues x = rowValues r := by
  unfold upsertRow
  by_cases ha : t.any (fun x => decide (rowKey x = rowKey r)) = true
  · rw [if_pos ha]
    obtain ⟨y, hy, hyk⟩ :=
      rowsWithKey_nodup_singleton t (rowKey r) h
        ((any_key_iff t (rowKey r)).mp ha)
    refine ⟨conflictUpdate y r, ?_, ?_, rowValues_conflictUpdate y r⟩
    · rw [rowsWithKey_map_update, hy]
      rfl
    · rw [rowKey_conflictUpdate, hyk]
  · rw [if_neg ha]
    have hm : rowKey r ∉ t.map rowKey := fun hm =>
      ha ((any_key_iff t (rowKey r)).mpr hm)
    refine ⟨r, ?_, rfl, rfl⟩
    rw [rowsWithKey_append, rowsWithKey_eq_nil t _ hm]
    simp [rowsWithKey]

/-- C1: starting from a table satisfying the uniqueness invariant,
upserting the same bar twice (same `(timestamp, symbol)` key, possibly
different prices) preserves the invariant, overwrites in place on the
second upsert (table length unchanged), and leaves exactly one row at
that key carrying the latest values. -/
theorem upsert_same_bar_twice (t : List Row) (r1 r2 : Row)
    (hn : keysNodup t) (hk : rowKey r1 = rowKey r2) :
    keysNodup (upsertRow (upsertRow t r1) r2) ∧
    (upsertRow (upsertRow t r1) r2).length = (upsertRow t r1).length ∧
    ∃ x, rowsWithKey (upsertRow (upsertRow t r1) r2) (rowKey r2) = [x] ∧
      rowKey x = rowKey r2 ∧ rowValues x = rowValues r2 := by
  have h1 : keysNodup (upsertRow t r1) := upsertRow_keysNodup t r1 hn
  refine ⟨upsertRow_keysNodup _ r2 h1, ?_,
    upsertRow_rowsWithKey _ r2 h1⟩
  apply upsertRow_length_mem
  apply (any_key_iff _ (rowKey r2)).mpr
  exact hk ▸ upsertRow_key_mem t r1

/-- Witness for C1: an empty table, then the same `(2020-01-03, XYZ)`
bar upserted twice with different prices. -/
theorem upsert_same_bar_twice_witness :
    keysNodup ([] : List Row) ∧
    rowKey ⟨⟨2020, 1, 3⟩, "XYZ", 1, 2, 3, 4, 5, 10⟩ =
      rowKey ⟨⟨2020, 1, 3⟩, "XYZ", 6, 7, 8, 9, 11, 12⟩ ∧
    (keysNodup
        (upsertRow (upsertRow [] ⟨⟨2020, 1, 3⟩, "XYZ", 1, 2, 3, 4, 5, 10⟩)
          ⟨⟨2020, 1, 3⟩, "XYZ", 6, 7, 8, 9, 11, 12⟩) ∧
      (upsertRow (upsertRow [] ⟨⟨2020, 1, 3⟩, "XYZ", 1, 2, 3, 4, 5, 10⟩)
            ⟨⟨2020, 1, 3⟩, "XYZ", 6, 7, 8, 9, 11, 12⟩).length =
        (upsertRow [] ⟨⟨2020, 1, 3⟩, "XYZ", 1, 2, 3, 4, 5, 10⟩).length ∧
      ∃ x, rowsWithKey
          (upsertRow (upsertRow [] ⟨⟨2020, 1, 3⟩, "XYZ", 1, 2, 3, 4, 5, 10⟩)
            ⟨⟨2020, 1, 3⟩, "XYZ", 6, 7, 8, 9, 11, 12⟩)
          (rowKey ⟨⟨2020, 1, 3⟩, "XYZ", 6, 7, 8, 9, 11, 12⟩) = [x] ∧
        rowKey x = rowKey ⟨⟨2020, 1, 3⟩, "XYZ", 6, 7, 8, 9, 11, 12⟩ ∧
        rowValues x = rowValues ⟨⟨2020, 1, 3⟩, "XYZ", 6, 7, 8, 9, 11, 12⟩) :=
  ⟨by simp [keysNodup], rfl,
    upsert_same_bar_twice [] ⟨⟨2020, 1, 3⟩, "XYZ", 1, 2, 3, 4, 5, 10⟩
      ⟨⟨2020, 1, 3⟩, "XYZ", 6, 7, 8, 9, 11, 12⟩ (by simp [keysNodup]) rfl⟩

end FinPipeline
